import Mathlib

/-!
# The debugger session of `dbg_impl.h`

A shallow embedding of `vscode::debugger_impl` (src/src/dbg_impl.h) and the
properties of its outbound messages, its step controller, its hook and its
request dispatcher.

`event_output` is the one member function whose body is in the header; it is
embedded statement by statement.  The other member functions are only declared
there (their bodies are in `dbg_impl.cpp`); they keep the declared names and
parameters and are modelled from the specification, each marked as such.
-/

namespace vscode

/-! ## The JSON writer -/

/-- One call on the JSON writer. `for (auto _ : res.Object())` opens an object
before its body and closes it after; `res("k")` writes a key; `.String(v)`,
`.Int64(v)` and `.Bool(v)` write a value. -/
inductive json_token where
  | object_begin
  | object_end
  | key (k : String)
  | string (v : String)
  | int64 (v : Int)
  | bool (v : Bool)
deriving DecidableEq, Repr

/-- The writer `wprotocol` (declared in dbg_protocol.h, which is not among the
sources): the calls made on it so far, oldest first. -/
structure wprotocol where
  tokens : List json_token
deriving DecidableEq, Repr

/-- A writer on which nothing was called: `wprotocol res;`. -/
def wprotocol.empty : wprotocol := ⟨[]⟩

/-- Entry of the loop `for (auto _ : res.Object())`. -/
def wprotocol.object_begin (w : wprotocol) : wprotocol :=
  ⟨w.tokens ++ [json_token.object_begin]⟩

/-- Exit of the loop `for (auto _ : res.Object())`. -/
def wprotocol.object_end (w : wprotocol) : wprotocol :=
  ⟨w.tokens ++ [json_token.object_end]⟩

/-- The call `res("k")`. -/
def wprotocol.key (w : wprotocol) (k : String) : wprotocol :=
  ⟨w.tokens ++ [json_token.key k]⟩

/-- The call `.String(v)`. -/
def wprotocol.string (w : wprotocol) (v : String) : wprotocol :=
  ⟨w.tokens ++ [json_token.string v]⟩

/-- The call `.Int64(v)`. -/
def wprotocol.int64 (w : wprotocol) (v : Int) : wprotocol :=
  ⟨w.tokens ++ [json_token.int64 v]⟩

/-- The call `.Bool(v)`. -/
def wprotocol.bool (w : wprotocol) (v : Bool) : wprotocol :=
  ⟨w.tokens ++ [json_token.bool v]⟩

/-- A JSON value as the front-end reads it; the fields of an object are kept in
the order they were written. -/
inductive json where
  | str (v : String)
  | int (v : Int)
  | bool (v : Bool)
  | obj (fields : List (String × json))

/-- An object that is still open while the writer's calls are read back: the
fields closed so far and the key that waits for its value. -/
structure open_object where
  fields : List (String × json)
  pending : Option String

/-- The reader's state: the objects still open, innermost first, and the
finished top-level value. -/
structure reader where
  stack : List open_object
  result : Option json

/-- Hand a finished value to the innermost open object, under the key that
waits for it, or make it the top-level value when no object is open. -/
def reader.deliver (r : reader) (v : json) : Option reader :=
  match r.stack, r.result with
  | [], none => some ⟨[], some v⟩
  | [], some _ => none
  | o :: rest, res =>
    match o.pending with
    | some k => some ⟨⟨o.fields ++ [(k, v)], none⟩ :: rest, res⟩
    | none => none

/-- Read one writer call. -/
def reader.step (r : reader) : json_token → Option reader
  | json_token.object_begin =>
    match r.stack, r.result with
    | [], none => some ⟨[⟨[], none⟩], none⟩
    | [], some _ => none
    | o :: rest, res =>
      match o.pending with
      | some _ => some ⟨⟨[], none⟩ :: o :: rest, res⟩
      | none => none
  | json_token.object_end =>
    match r.stack with
    | [] => none
    | o :: rest =>
      match o.pending with
      | some _ => none
      | none => reader.deliver ⟨rest, r.result⟩ (json.obj o.fields)
  | json_token.key k =>
    match r.stack with
    | [] => none
    | o :: rest =>
      match o.pending with
      | some _ => none
      | none => some ⟨⟨o.fields, some k⟩ :: rest, r.result⟩
  | json_token.string v => reader.deliver r (json.str v)
  | json_token.int64 v => reader.deliver r (json.int v)
  | json_token.bool v => reader.deliver r (json.bool v)

/-- Read a run of writer calls. -/
def reader.run (r : reader) : List json_token → Option reader
  | [] => some r
  | t :: ts =>
    match reader.step r t with
    | some r1 => reader.run r1 ts
    | none => none

/-- The JSON value a writer holds, when its calls form exactly one complete
value. -/
def wprotocol.value (w : wprotocol) : Option json :=
  match reader.run ⟨[], none⟩ w.tokens with
  | some ⟨[], some v⟩ => some v
  | _ => none

/-- The value of the field `k` of an object: the first field of that name. -/
def json.field (k : String) : json → Option json
  | json.obj fields => fields.lookup k
  | _ => none

/-- The integer held by the top-level field `seq` of a message. -/
def wprotocol.seq_field (w : wprotocol) : Option Int :=
  match w.value with
  | some v =>
    match json.field "seq" v with
    | some (json.int n) => some n
    | _ => none
  | none => none

/-- The value of the field `k` of the object held by the top-level field `body`
of a message. -/
def wprotocol.body_field (w : wprotocol) (k : String) : Option json :=
  match w.value with
  | some v =>
    match json.field "body" v with
    | some b => json.field k b
    | none => none
  | none => none

/-! ## The network -/

/-- The network collaborator `io` (only forward-declared in the header): the
messages handed to it through `output`, oldest first. -/
structure io where
  sent : List wprotocol
deriving DecidableEq, Repr

/-- The call `network_->output(res)`. -/
def io.output (n : io) (res : wprotocol) : io :=
  ⟨n.sent ++ [res]⟩

/-! ## The session -/

/-- A `lua_State*`: the address of an interpreter, 0 for the null pointer. -/
abbrev lua_State := Nat

/-- The session states (enum `state` of dbg_enum.h, which is not among the
sources; the states are those the specification names). -/
inductive state where
  | birth
  | initialized
  | running
  | step_pending
  | stopped
  | terminated
deriving DecidableEq, Repr

/-- The step kinds: `enum class step { in = 1, over = 2, out = 3 }`. -/
inductive step where
  | in_
  | over
  | out
deriving DecidableEq, Repr

/-- One frame of the paused snapshot: `struct stack { int depth; int64_t reference; }`. -/
structure stack where
  depth : Int
  reference : Int
deriving DecidableEq, Repr

/-- The callables `main_dispatch_` holds, each of type `bool(rprotocol&)`: the
request handlers declared with the parameter list `(rprotocol& req)` (dbg_impl.h
lines 80-85 and 152-154) and, last, the entry section 4.7 gives the main table
for `threads`. The header declares `request_thread` with `L` and `ar` as well;
an entry of this table receives the request only. -/
inductive main_request where
  | request_initialize
  | request_set_breakpoints
  | request_attach
  | request_disconnect
  | request_pause
  | request_set_exception_breakpoints
  | request_configuration_done
  | request_launch
  | request_launch_done
  | request_thread
deriving DecidableEq, Repr

/-- The request handlers declared with the parameter list
`(rprotocol& req, lua_State *L, lua_Debug *ar)` (dbg_impl.h lines 88-98): the
value type of `hook_dispatch_`. -/
inductive hook_request where
  | request_thread
  | request_stack_trace
  | request_source
  | request_scopes
  | request_variables
  | request_set_variable
  | request_stepin
  | request_stepout
  | request_next
  | request_continue
  | request_evaluate
deriving DecidableEq, Repr

/-- The data members of `debugger_impl` (dbg_impl.h lines 161-191) whose types
the header or the specification gives.  `network_` carries the `io` object the
pointer refers to, so a call through the pointer shows as a change of that
object.  A dispatch table holds, for each command, which member function is
registered. Left out are the members whose types come from other headers
(`breakpoints_`, `watch_`, `pathconvert_`, `custom_`, `asm_jit_`, `asm_func_`,
`cur_source_`, `thread_`, `attach_callback_`, `cache_launch_`, `stdout_`,
`stderr_`). -/
structure debugger_impl where
  seq : Int
  network_ : io
  state_ : state
  step_ : step
  stepping_stacklevel_ : Int
  stepping_lua_state_ : lua_State
  stacklevel_ : List (lua_State × Int)
  stack_ : List stack
  has_source_ : Bool
  exception_ : Bool
  attachL_ : lua_State
  hookL_ : lua_State
  allowhook_ : Bool
  launchL_ : lua_State
  launch_console_ : String
  main_dispatch_ : List (String × main_request)
  hook_dispatch_ : List (String × hook_request)
deriving DecidableEq, Repr

/-- An `int64_t` result: the value reduced into [-2^63, 2^63). -/
def int64_wrap (x : Int) : Int :=
  (x + 9223372036854775808) % 18446744073709551616 - 9223372036854775808

/-- The member template `event_output(category, msg)` (dbg_impl.h lines 107-132).
`a2u` is `vscode::a2u`, the ANSI to UTF-8 conversion, defined outside the
header; `DEBUGGER_DISABLE_LAUNCH` tells whether the build defines that symbol. -/
def debugger_impl.event_output (a2u : String → String) (DEBUGGER_DISABLE_LAUNCH : Bool)
    (s : debugger_impl) (category msg : String) : debugger_impl :=
  let res := wprotocol.empty
  let res := res.object_begin
  let res := (res.key "type").string "event"
  let res := (res.key "seq").int64 s.seq
  let s := { s with seq := int64_wrap (s.seq + 1) }
  let res := (res.key "event").string "output"
  let res := (res.key "body").object_begin
  let res := (res.key "category").string category
  let res :=
    if DEBUGGER_DISABLE_LAUNCH then
      (res.key "output").string msg
    else if s.launch_console_ = "ansi" then
      (res.key "output").string (a2u msg)
    else
      (res.key "output").string msg
  let res := res.object_end
  let res := res.object_end
  { s with network_ := s.network_.output res }

/-- One call of `event_output` in a run of calls: the console coding in force
when it is made, the category and the message. -/
structure output_call where
  console : String
  category : String
  msg : String
deriving DecidableEq, Repr

/-- A finite sequence of `event_output` calls, each made with `launch_console_`
holding the coding of that call. -/
def run_outputs (a2u : String → String) (DEBUGGER_DISABLE_LAUNCH : Bool) :
    debugger_impl → List output_call → debugger_impl
  | s, [] => s
  | s, c :: cs =>
    run_outputs a2u DEBUGGER_DISABLE_LAUNCH
      (debugger_impl.event_output a2u DEBUGGER_DISABLE_LAUNCH
        { s with launch_console_ := c.console } c.category c.msg) cs

/-- The `output` event the front-end is to receive for category `c` and text `o`
with sequence number `n`. -/
def output_event (n : Int) (c o : String) : json :=
  json.obj [("type", json.str "event"), ("seq", json.int n), ("event", json.str "output"),
    ("body", json.obj [("category", json.str c), ("output", json.str o)])]

/-- The text `event_output` writes under `output`. -/
def output_text (a2u : String → String) (DEBUGGER_DISABLE_LAUNCH : Bool) (console msg : String) :
    String :=
  if DEBUGGER_DISABLE_LAUNCH = false ∧ console = "ansi" then a2u msg else msg

/-! ## Step controller

The member functions below are declared in dbg_impl.h (lines 69-76) and defined
in dbg_impl.cpp, which is not among the sources. -/

/-- What the interpreter reports to the hook (`lua_Debug`, from lua.hpp): the
kind of event and the current line.  The kinds are those of the hook engine's
decision table. -/
inductive hook_event where
  | call
  | ret
  | line
  | error
deriving DecidableEq, Repr

/-- The fields of `lua_Debug` the hook reads. -/
structure lua_Debug where
  event : hook_event
  currentline : Int
deriving DecidableEq, Repr

/-- The read `stacklevel_[L]`: the recorded call depth of `L`, 0 when the map
has no entry for it. -/
def debugger_impl.level (s : debugger_impl) (L : lua_State) : Int :=
  (s.stacklevel_.lookup L).getD 0

/-- The write `stacklevel_[L] = d`. -/
def debugger_impl.set_level (s : debugger_impl) (L : lua_State) (d : Int) : debugger_impl :=
  { s with stacklevel_ := (L, d) :: s.stacklevel_.filter (fun p => p.1 != L) }

/-- Modelled from the spec: `set_state(state)`, the setter of `state_`. -/
def debugger_impl.set_state (s : debugger_impl) (st : state) : debugger_impl :=
  { s with state_ := st }

/-- Modelled from the spec: `is_state(state)`, the test of `state_`. -/
def debugger_impl.is_state (s : debugger_impl) (st : state) : Bool :=
  s.state_ == st

/-- Modelled from the spec: `set_step(step)`, the setter of `step_`. -/
def debugger_impl.set_step (s : debugger_impl) (k : step) : debugger_impl :=
  { s with step_ := k }

/-- Modelled from the spec: `is_step(step)`, the test of `step_`. -/
def debugger_impl.is_step (s : debugger_impl) (k : step) : Bool :=
  s.step_ == k

/-- Modelled from the spec: `step_in()` (body in dbg_impl.cpp). Section 4.5:
"At step request, records the current call depth and interpreter handle". The
function is declared without parameters: the interpreter is the one the session
is paused in, which `run_stopped` keeps in `hookL_`. -/
def debugger_impl.step_in (s : debugger_impl) : debugger_impl :=
  let s := (s.set_state state.step_pending).set_step step.in_
  { s with stepping_stacklevel_ := s.level s.hookL_, stepping_lua_state_ := s.hookL_ }

/-- Modelled from the spec: `step_over(L, ar)` (body in dbg_impl.cpp). Section
4.5: "At step request, records the current call depth and interpreter handle". -/
def debugger_impl.step_over (s : debugger_impl) (L : lua_State) (_ar : lua_Debug) :
    debugger_impl :=
  let s := (s.set_state state.step_pending).set_step step.over
  { s with stepping_stacklevel_ := s.level L, stepping_lua_state_ := L }

/-- Modelled from the spec: `step_out(L, ar)` (body in dbg_impl.cpp). Section
4.5: "At step request, records the current call depth and interpreter handle". -/
def debugger_impl.step_out (s : debugger_impl) (L : lua_State) (_ar : lua_Debug) :
    debugger_impl :=
  let s := (s.set_state state.step_pending).set_step step.out
  { s with stepping_stacklevel_ := s.level L, stepping_lua_state_ := L }

/-- Modelled from the spec: `check_step(L, ar)` (body in dbg_impl.cpp), the step
predicate of section 4.5. In: any frame. Over: depth ≤ anchor_depth in the same
interpreter. Out: depth < anchor_depth. For each kind, "a step targeting
interpreter A does not stop inside interpreter B". -/
def debugger_impl.check_step (s : debugger_impl) (L : lua_State) (_ar : lua_Debug) : Bool :=
  match s.step_ with
  | step.in_ => L == s.stepping_lua_state_
  | step.over => L == s.stepping_lua_state_ && decide (s.level L ≤ s.stepping_stacklevel_)
  | step.out => L == s.stepping_lua_state_ && decide (s.level L < s.stepping_stacklevel_)

/-! ## Requests, replies and the dispatcher -/

/-- A parsed request (`rprotocol`, declared in dbg_protocol.h, which is not among
the sources): its sequence number, its command and its arguments. -/
structure rprotocol where
  seq : Int
  command : String
  arguments : json

/-- The bodies of the request handlers (dbg_impl.cpp, not among the sources),
taken as a parameter: what each does to the session, and the bool it returns. -/
structure request_handlers where
  main : main_request → debugger_impl → rprotocol → Bool × debugger_impl
  hook : hook_request → debugger_impl → rprotocol → lua_State → lua_Debug → Bool × debugger_impl

/-- Modelled from the spec: the entries the constructor (dbg_impl.cpp) puts in
`main_dispatch_`: the main table of section 4.7, "`initialize`, `attach`,
`launch`, `configurationDone`, `setBreakpoints`, `setExceptionBreakpoints`,
`disconnect`, `pause`, `threads`", each with its handler. A build that disables
launch does not declare the two launch handlers. -/
def main_dispatch_table (DEBUGGER_DISABLE_LAUNCH : Bool) : List (String × main_request) :=
  [("initialize", main_request.request_initialize),
   ("attach", main_request.request_attach)] ++
  (if DEBUGGER_DISABLE_LAUNCH then []
   else [("launch", main_request.request_launch),
         ("configurationDone", main_request.request_configuration_done)]) ++
  [("setBreakpoints", main_request.request_set_breakpoints),
   ("setExceptionBreakpoints", main_request.request_set_exception_breakpoints),
   ("disconnect", main_request.request_disconnect),
   ("pause", main_request.request_pause),
   ("threads", main_request.request_thread)]

/-- Modelled from the spec: the entries the constructor (dbg_impl.cpp) puts in
`hook_dispatch_`: the commands section 4.7 adds for the Stopped state,
"`stackTrace`, `scopes`, `variables`, `setVariable`, `source`, `evaluate`,
`continue`, `next`, `stepIn`, `stepOut`", each with the handler the header
declares for it. -/
def hook_dispatch_table : List (String × hook_request) :=
  [("stackTrace", hook_request.request_stack_trace),
   ("scopes", hook_request.request_scopes),
   ("variables", hook_request.request_variables),
   ("setVariable", hook_request.request_set_variable),
   ("source", hook_request.request_source),
   ("evaluate", hook_request.request_evaluate),
   ("continue", hook_request.request_continue),
   ("next", hook_request.request_next),
   ("stepIn", hook_request.request_stepin),
   ("stepOut", hook_request.request_stepout)]

/-- Modelled from the spec: the constructor `debugger_impl(io, mode)` (body in
dbg_impl.cpp): a session in state Birth with both tables filled and nothing sent
yet. The first `seq` is taken to be 1; the specification does not fix it. -/
def debugger_impl.create (network : io) (DEBUGGER_DISABLE_LAUNCH : Bool) : debugger_impl :=
  { seq := 1
    network_ := network
    state_ := state.birth
    step_ := step.in_
    stepping_stacklevel_ := 0
    stepping_lua_state_ := 0
    stacklevel_ := []
    stack_ := []
    has_source_ := false
    exception_ := false
    attachL_ := 0
    hookL_ := 0
    allowhook_ := true
    launchL_ := 0
    launch_console_ := ""
    main_dispatch_ := main_dispatch_table DEBUGGER_DISABLE_LAUNCH
    hook_dispatch_ := hook_dispatch_table }

/-- Modelled from the spec: `response_error(req, msg)` (body in dbg_impl.cpp): a
DAP error response to `req` carrying `msg`, numbered from the shared `seq`. -/
def debugger_impl.response_error (s : debugger_impl) (req : rprotocol) (msg : String) :
    debugger_impl :=
  let res := wprotocol.empty
  let res := res.object_begin
  let res := (res.key "type").string "response"
  let res := (res.key "seq").int64 s.seq
  let s := { s with seq := int64_wrap (s.seq + 1) }
  let res := (res.key "command").string req.command
  let res := (res.key "request_seq").int64 req.seq
  let res := (res.key "success").bool false
  let res := (res.key "message").string msg
  let res := res.object_end
  { s with network_ := s.network_.output res }

/-- Modelled from the spec: `event_stopped(msg, text)` (body in dbg_impl.cpp):
the event `stopped {reason, threadId, text?}`, numbered from the shared `seq`. -/
def debugger_impl.event_stopped (s : debugger_impl) (msg : String) (text : Option String) :
    debugger_impl :=
  let res := wprotocol.empty
  let res := res.object_begin
  let res := (res.key "type").string "event"
  let res := (res.key "seq").int64 s.seq
  let s := { s with seq := int64_wrap (s.seq + 1) }
  let res := (res.key "event").string "stopped"
  let res := (res.key "body").object_begin
  let res := (res.key "reason").string msg
  let res := (res.key "threadId").int64 1
  let res :=
    match text with
    | some t => (res.key "text").string t
    | none => res
  let res := res.object_end
  let res := res.object_end
  { s with network_ := s.network_.output res }

/-- Modelled from the spec: `update_main(req, quit)` (body in dbg_impl.cpp):
look the command up in `main_dispatch_` and run its handler. Returns whether an
entry was found, `quit` (set to what the handler returned), and the session. -/
def debugger_impl.update_main (H : request_handlers) (s : debugger_impl) (req : rprotocol)
    (quit : Bool) : Bool × Bool × debugger_impl :=
  match s.main_dispatch_.lookup req.command with
  | some h => (true, (H.main h s req).1, (H.main h s req).2)
  | none => (false, quit, s)

/-- Modelled from the spec: `update_hook(req, L, ar, quit)` (body in
dbg_impl.cpp): look the command up in `hook_dispatch_` and run its handler on
the paused frame. -/
def debugger_impl.update_hook (H : request_handlers) (s : debugger_impl) (req : rprotocol)
    (L : lua_State) (ar : lua_Debug) (quit : Bool) : Bool × Bool × debugger_impl :=
  match s.hook_dispatch_.lookup req.command with
  | some h => (true, (H.hook h s req L ar).1, (H.hook h s req L ar).2)
  | none => (false, quit, s)

/-- Modelled from the spec: one turn of the idle loop of `run_stopped` on the
request `req`. Section 4.7: while Stopped the main table applies and the hook
table as well; "unknown commands return `not supported`". Returns whether the
loop is to end, and the session. -/
def debugger_impl.run_stopped_request (H : request_handlers) (s : debugger_impl)
    (L : lua_State) (ar : lua_Debug) (req : rprotocol) : Bool × debugger_impl :=
  match s.update_main H req false with
  | (true, quit, s1) => (quit, s1)
  | (false, quit, s1) =>
    match s1.update_hook H req L ar quit with
    | (true, quit, s2) => (quit, s2)
    | (false, quit, s2) => (quit, s2.response_error req "not supported")

/-- The idle loop over the requests that arrive while paused, until a handler
ends it. -/
def debugger_impl.run_stopped_loop (H : request_handlers) (L : lua_State) (ar : lua_Debug) :
    debugger_impl → List rprotocol → debugger_impl
  | s, [] => s
  | s, req :: rest =>
    match s.run_stopped_request H L ar req with
    | (true, s1) => s1
    | (false, s1) => debugger_impl.run_stopped_loop H L ar s1 rest

/-- Modelled from the spec: `run_stopped(L, ar)` (body in dbg_impl.cpp): the
session becomes Stopped, paused in `L` (kept in `hookL_`), and drains the inbound
requests through the dispatcher until a resume or disconnect. `inbox` is what
arrives while it is paused. -/
def debugger_impl.run_stopped (H : request_handlers) (s : debugger_impl) (L : lua_State)
    (ar : lua_Debug) (inbox : List rprotocol) : debugger_impl :=
  debugger_impl.run_stopped_loop H L ar ({ s with hookL_ := L }.set_state state.stopped) inbox

/-! ## The hook -/

/-- Modelled from the spec: the decision table of section 4.6, as the reason to
stop at an event, if any. `check_breakpoint` is the member function of that
name (the breakpoint store is in dbg_breakpoint.h, not among the sources): does
a breakpoint fire at this event. The step predicate counts while a step is
pending; when both fire "the breakpoint reason wins". -/
def debugger_impl.stop_reason (check_breakpoint : lua_State → lua_Debug → Bool)
    (s : debugger_impl) (L : lua_State) (ar : lua_Debug) : Option String :=
  match ar.event with
  | hook_event.line =>
    if check_breakpoint L ar then some "breakpoint"
    else if s.is_state state.step_pending && s.check_step L ar then some "step"
    else none
  | hook_event.error => if s.exception_ then some "exception" else none
  | hook_event.call => none
  | hook_event.ret => none

/-- Modelled from the spec: `hook(L, ar)` (body in dbg_impl.cpp). Section 4.9:
"the hook must no-op if the session is Terminated". Otherwise the decision table
of section 4.6: Call and Return update the depth accounting; Line and Error
enter Stopped when the table says so, which emits a `stopped` event and runs the
idle loop. -/
def debugger_impl.hook (H : request_handlers) (check_breakpoint : lua_State → lua_Debug → Bool)
    (s : debugger_impl) (L : lua_State) (ar : lua_Debug) (inbox : List rprotocol) :
    debugger_impl :=
  if s.is_state state.terminated then s
  else
    match ar.event with
    | hook_event.call => s.set_level L (s.level L + 1)
    | hook_event.ret => s.set_level L (s.level L - 1)
    | _ =>
      match s.stop_reason check_breakpoint L ar with
      | some reason => (s.event_stopped reason none).run_stopped H L ar inbox
      | none => s

/-- Whether none of the events `evs`, delivered in order from `s`, stops. -/
def hooks_quiet (H : request_handlers) (check_breakpoint : lua_State → lua_Debug → Bool) :
    debugger_impl → List (lua_State × lua_Debug) → Bool
  | _, [] => true
  | s, ev :: evs =>
    (s.is_state state.terminated || (s.stop_reason check_breakpoint ev.1 ev.2).isNone) &&
      hooks_quiet H check_breakpoint (s.hook H check_breakpoint ev.1 ev.2 []) evs

/-- The session after the events `evs` were delivered to the hook in order. -/
def run_hooks (H : request_handlers) (check_breakpoint : lua_State → lua_Debug → Bool) :
    debugger_impl → List (lua_State × lua_Debug) → debugger_impl
  | s, [] => s
  | s, ev :: evs =>
    run_hooks H check_breakpoint (s.hook H check_breakpoint ev.1 ev.2 []) evs

/-- The calls less the returns that interpreter `L` reports among the events
`evs`: by how much they change its call depth. -/
def depth_change (L : lua_State) : List (lua_State × lua_Debug) → Int
  | [] => 0
  | ev :: evs =>
    (if ev.1 = L then
      match ev.2.event with
      | hook_event.call => 1
      | hook_event.ret => -1
      | _ => 0
    else 0) + depth_change L evs

/-! ## Concrete instances -/

/-- A session of a build with launch that is running, has sent nothing, numbers
its next message 7 and writes to an `ansi` console. -/
def sample_session : debugger_impl :=
  { debugger_impl.create ⟨[]⟩ false with
    seq := 7, state_ := state.running, launch_console_ := "ansi" }

/-- Modelled from the spec: handlers that do the state transitions of section
4.8 and nothing else. `continue` resumes to Running; `next`, `stepIn` and
`stepOut` call `step_over`, `step_in` and `step_out`; `disconnect` goes to
Terminated; each of these ends the idle loop. Every other handler leaves the
session as it is. -/
def resume_handlers : request_handlers where
  main := fun h s _ =>
    match h with
    | main_request.request_disconnect => (true, s.set_state state.terminated)
    | _ => (false, s)
  hook := fun h s _ L ar =>
    match h with
    | hook_request.request_continue => (true, s.set_state state.running)
    | hook_request.request_next => (true, s.step_over L ar)
    | hook_request.request_stepin => (true, s.step_in)
    | hook_request.request_stepout => (true, s.step_out L ar)
    | _ => (false, s)

/-- A breakpoint store with one breakpoint: line 10 of the chunk interpreter 1
runs. -/
def sample_breakpoint (L : lua_State) (ar : lua_Debug) : Bool :=
  L == 1 && ar.currentline == 10

/-- The sample session paused at the breakpoint in interpreter 1, no request
answered yet. -/
def sample_paused : debugger_impl :=
  sample_session.hook resume_handlers sample_breakpoint 1 ⟨hook_event.line, 10⟩ []

/-! ## Outbound messages of `event_output` -/

theorem int64_wrap_succ (x : Int) (hlo : -9223372036854775808 ≤ x)
    (hhi : x < 9223372036854775807) : int64_wrap (x + 1) = x + 1 := by
  unfold int64_wrap
  omega

theorem event_output_message (a2u : String → String) (dl : Bool) (s : debugger_impl)
    (c m : String) :
    ∃ msg, (s.event_output a2u dl c m).network_.sent = s.network_.sent ++ [msg] ∧
      msg.value = some (output_event s.seq c (output_text a2u dl s.launch_console_ m)) := by
  refine ⟨_, rfl, ?_⟩
  cases dl
  · by_cases h : s.launch_console_ = "ansi"
    · simp [output_text, h]
      rfl
    · simp [output_text, h]
      rfl
  · rfl

theorem seq_field_of_value (msg : wprotocol) (n : Int) (c o : String)
    (h : msg.value = some (output_event n c o)) : msg.seq_field = some n := by
  unfold wprotocol.seq_field
  rw [h]
  rfl

theorem event_output_seq (a2u : String → String) (dl : Bool) (s : debugger_impl)
    (c m : String) : (s.event_output a2u dl c m).seq = int64_wrap (s.seq + 1) := rfl

theorem event_output_step (a2u : String → String) (dl : Bool) (s : debugger_impl)
    (c m : String) (hlo : -9223372036854775808 ≤ s.seq) (hhi : s.seq < 9223372036854775807) :
    (s.event_output a2u dl c m).seq = s.seq + 1 ∧
      ∃ msg, (s.event_output a2u dl c m).network_.sent = s.network_.sent ++ [msg] ∧
        msg.seq_field = some s.seq := by
  refine ⟨?_, ?_⟩
  · rw [event_output_seq, int64_wrap_succ _ hlo hhi]
  · obtain ⟨msg, h1, h2⟩ := event_output_message a2u dl s c m
    exact ⟨msg, h1, seq_field_of_value _ _ _ _ h2⟩

theorem run_outputs_append (a2u : String → String) (dl : Bool) :
    ∀ (xs ys : List output_call) (s : debugger_impl),
      run_outputs a2u dl s (xs ++ ys) = run_outputs a2u dl (run_outputs a2u dl s xs) ys
  | [], _, _ => rfl
  | x :: xs, ys, s => by
    simp only [List.cons_append, run_outputs]
    exact run_outputs_append a2u dl xs ys _

theorem run_outputs_trace (a2u : String → String) (dl : Bool) :
    ∀ (calls : List output_call) (s : debugger_impl),
      -9223372036854775808 ≤ s.seq → s.seq + calls.length ≤ 9223372036854775807 →
      (run_outputs a2u dl s calls).seq = s.seq + calls.length ∧
      ∃ msgs, (run_outputs a2u dl s calls).network_.sent = s.network_.sent ++ msgs ∧
        msgs.map wprotocol.seq_field =
          (List.range calls.length).map (fun (i : Nat) => some (s.seq + (i : Int)))
  | [], s, _, _ => by
    simp [run_outputs]
  | c :: cs, s, hlo, hhi => by
    simp only [List.length_cons, Nat.cast_add, Nat.cast_one] at hhi
    have hstep := event_output_step a2u dl { s with launch_console_ := c.console }
      c.category c.msg hlo (by show s.seq < _; omega)
    obtain ⟨hseq, msg, hsent, hfield⟩ := hstep
    have hseq1 : (debugger_impl.event_output a2u dl { s with launch_console_ := c.console }
        c.category c.msg).seq = s.seq + 1 := hseq
    have ih := run_outputs_trace a2u dl cs
      (debugger_impl.event_output a2u dl { s with launch_console_ := c.console } c.category c.msg)
      (by rw [hseq1]; omega) (by rw [hseq1]; omega)
    obtain ⟨ihseq, msgs, ihsent, ihfield⟩ := ih
    refine ⟨?_, msg :: msgs, ?_, ?_⟩
    · simp only [run_outputs, List.length_cons, Nat.cast_add, Nat.cast_one]
      rw [ihseq, hseq1]
      omega
    · simp only [run_outputs]
      rw [ihsent, hsent]
      simp
    · rw [List.length_cons, List.range_succ_eq_map]
      simp only [List.map_cons, List.map_map]
      rw [ihfield, hseq1]
      refine congrArg₂ _ ?_ ?_
      · simpa using hfield
      · apply List.map_congr_left
        intro i _
        simp only [Function.comp, Nat.cast_succ]
        congr 1
        omega

theorem run_outputs_take_succ (a2u : String → String) (dl : Bool) (s : debugger_impl)
    (calls : List output_call) (k : Nat) (hk : k < calls.length) :
    run_outputs a2u dl s (calls.take (k + 1)) =
      debugger_impl.event_output a2u dl
        { run_outputs a2u dl s (calls.take k) with launch_console_ := (calls.get ⟨k, hk⟩).console }
        (calls.get ⟨k, hk⟩).category (calls.get ⟨k, hk⟩).msg := by
  rw [List.take_succ, run_outputs_append]
  simp [List.getElem?_eq_getElem hk, run_outputs]

/-- C1: in any finite sequence of `event_output` calls (any category, message
and console coding) made while the counter stays below 2^63-1, each call hands
the network one message whose `seq` is the counter before the call and leaves
the counter one larger; so the `seq` values of the emitted messages are strictly
increasing in emission order. -/
theorem event_output_seq_strictly_increasing (a2u : String → String) (dl : Bool)
    (s : debugger_impl) (calls : List output_call)
    (hlo : -9223372036854775808 ≤ s.seq)
    (hhi : s.seq + calls.length ≤ 9223372036854775807) :
    (∀ k, k < calls.length → ∃ msg,
        (run_outputs a2u dl s (calls.take (k + 1))).network_.sent =
          (run_outputs a2u dl s (calls.take k)).network_.sent ++ [msg] ∧
        msg.seq_field = some (run_outputs a2u dl s (calls.take k)).seq ∧
        (run_outputs a2u dl s (calls.take (k + 1))).seq =
          (run_outputs a2u dl s (calls.take k)).seq + 1) ∧
    ∃ seqs : List Int,
      ((run_outputs a2u dl s calls).network_.sent.drop s.network_.sent.length).map
          wprotocol.seq_field = seqs.map some ∧
      seqs.length = calls.length ∧ seqs.Pairwise (fun a b => a < b) := by
  constructor
  · intro k hk
    have hlen : (calls.take k).length = k := by
      rw [List.length_take]; omega
    have htr := (run_outputs_trace a2u dl (calls.take k) s hlo (by rw [hlen]; omega)).1
    rw [hlen] at htr
    have hstep := event_output_step a2u dl
      { run_outputs a2u dl s (calls.take k) with launch_console_ := (calls.get ⟨k, hk⟩).console }
      (calls.get ⟨k, hk⟩).category (calls.get ⟨k, hk⟩).msg
      (by show -9223372036854775808 ≤ (run_outputs a2u dl s (calls.take k)).seq; omega)
      (by show (run_outputs a2u dl s (calls.take k)).seq < 9223372036854775807; omega)
    obtain ⟨hseq, msg, hsent, hfield⟩ := hstep
    rw [run_outputs_take_succ a2u dl s calls k hk]
    exact ⟨msg, hsent, hfield, hseq⟩
  · obtain ⟨_, msgs, hsent, hfield⟩ := run_outputs_trace a2u dl calls s hlo hhi
    refine ⟨(List.range calls.length).map (fun (i : Nat) => s.seq + (i : Int)), ?_, ?_, ?_⟩
    · rw [hsent, List.drop_left, hfield, List.map_map]
      rfl
    · simp
    · rw [List.pairwise_map]
      refine List.Pairwise.imp ?_ (List.pairwise_lt_range calls.length)
      intro a b hab
      omega

theorem event_output_seq_strictly_increasing_witness :
    ∃ seqs : List Int,
      ((run_outputs id false sample_session
          [⟨"ansi", "stdout", "a"⟩, ⟨"utf8", "stderr", "b"⟩, ⟨"", "console", "c"⟩]).network_.sent.drop
            sample_session.network_.sent.length).map wprotocol.seq_field = seqs.map some ∧
      seqs.length = 3 ∧ seqs.Pairwise (fun a b => a < b) :=
  (event_output_seq_strictly_increasing id false sample_session
    [⟨"ansi", "stdout", "a"⟩, ⟨"utf8", "stderr", "b"⟩, ⟨"", "console", "c"⟩]
    (by decide) (by decide)).2

/-- C2: one call `event_output(c, m)` hands exactly one message to the network:
the object with, in this order and with nothing else, `type` = "event", `seq`,
`event` = "output" and `body`, whose fields are exactly `category` = c and
`output`, the message text as the console coding has it written. -/
theorem event_output_emits_one_output_event (a2u : String → String) (dl : Bool)
    (s : debugger_impl) (c m : String) :
    ∃ msg, (s.event_output a2u dl c m).network_.sent = s.network_.sent ++ [msg] ∧
      msg.value = some
        (json.obj [("type", json.str "event"), ("seq", json.int s.seq),
          ("event", json.str "output"),
          ("body", json.obj [("category", json.str c),
            ("output", json.str
              (if dl = false ∧ s.launch_console_ = "ansi" then a2u m else m))])]) :=
  event_output_message a2u dl s c m

theorem body_field_of_value (msg : wprotocol) (n : Int) (c o : String)
    (h : msg.value = some (output_event n c o)) :
    msg.body_field "category" = some (json.str c) ∧
      msg.body_field "output" = some (json.str o) := by
  unfold wprotocol.body_field
  rw [h]
  exact ⟨rfl, rfl⟩

/-- C9: in the message `event_output(c, m)` emits, `body.category` is c
unchanged; `body.output` is m unchanged when the build disables launch or the
console coding is not exactly "ansi", and is `a2u(m)` when the coding is exactly
"ansi" in a build with launch. -/
theorem event_output_console_coding (a2u : String → String) (dl : Bool)
    (s : debugger_impl) (c m : String) :
    ∃ msg, (s.event_output a2u dl c m).network_.sent = s.network_.sent ++ [msg] ∧
      msg.body_field "category" = some (json.str c) ∧
      ((dl = true ∨ s.launch_console_ ≠ "ansi") →
        msg.body_field "output" = some (json.str m)) ∧
      ((dl = false ∧ s.launch_console_ = "ansi") →
        msg.body_field "output" = some (json.str (a2u m))) := by
  obtain ⟨msg, hsent, hval⟩ := event_output_message a2u dl s c m
  obtain ⟨hc, ho⟩ := body_field_of_value _ _ _ _ hval
  refine ⟨msg, hsent, hc, ?_, ?_⟩
  · intro h
    rw [ho]
    rcases h with h | h
    · simp [output_text, h]
    · simp [output_text, h]
  · intro h
    rw [ho]
    simp [output_text, h.1, h.2]

theorem event_output_console_coding_witness :
    ∃ msg, (sample_session.event_output (fun t => "utf8:" ++ t) false "stdout" "hi").network_.sent
        = [msg] ∧
      msg.body_field "category" = some (json.str "stdout") ∧
      msg.body_field "output" = some (json.str "utf8:hi") := by
  obtain ⟨msg, h1, h2, _, h4⟩ :=
    event_output_console_coding (fun t => "utf8:" ++ t) false sample_session "stdout" "hi"
  exact ⟨msg, h1, h2, h4 ⟨rfl, rfl⟩⟩

/-- C10: `event_output` changes no session field other than `seq` (and hands
one message to the network): `state_`, `step_`, the step anchor
`stepping_stacklevel_` and `stepping_lua_state_`, the depth map `stacklevel_`,
the snapshot `stack_`, `launch_console_` and every other member keep their
values, so the call never transitions the session. -/
theorem event_output_frame (a2u : String → String) (dl : Bool) (s : debugger_impl)
    (c m : String) :
    (s.event_output a2u dl c m).state_ = s.state_ ∧
    (s.event_output a2u dl c m).step_ = s.step_ ∧
    (s.event_output a2u dl c m).stepping_stacklevel_ = s.stepping_stacklevel_ ∧
    (s.event_output a2u dl c m).stepping_lua_state_ = s.stepping_lua_state_ ∧
    (s.event_output a2u dl c m).stacklevel_ = s.stacklevel_ ∧
    (s.event_output a2u dl c m).stack_ = s.stack_ ∧
    (s.event_output a2u dl c m).launch_console_ = s.launch_console_ ∧
    { s.event_output a2u dl c m with
        seq := s.seq, network_ := s.network_ } = s :=
  ⟨rfl, rfl, rfl, rfl, rfl, rfl, rfl, rfl⟩

/-! ## The hook and the step controller -/

/-- C8: a hook event delivered while the session is Terminated (any interpreter,
event kind and line, whatever is inbound) leaves the session as it was: no
message is emitted, `run_stopped` is not entered and no field changes. -/
theorem hook_terminated_noop (H : request_handlers)
    (check_breakpoint : lua_State → lua_Debug → Bool) (s : debugger_impl) (L : lua_State)
    (ar : lua_Debug) (inbox : List rprotocol) (h : s.state_ = state.terminated) :
    s.hook H check_breakpoint L ar inbox = s ∧
      (s.hook H check_breakpoint L ar inbox).network_.sent = s.network_.sent ∧
      (s.hook H check_breakpoint L ar inbox).state_ = state.terminated := by
  have hk : s.hook H check_breakpoint L ar inbox = s := by
    simp [debugger_impl.hook, debugger_impl.is_state, h]
  rw [hk]
  exact ⟨rfl, rfl, h⟩

theorem hook_terminated_noop_witness :
    (sample_session.set_state state.terminated).hook resume_handlers sample_breakpoint 1
        ⟨hook_event.line, 10⟩ [⟨3, "stepIn", json.obj []⟩] =
      sample_session.set_state state.terminated :=
  (hook_terminated_noop resume_handlers sample_breakpoint
    (sample_session.set_state state.terminated) 1 ⟨hook_event.line, 10⟩
    [⟨3, "stepIn", json.obj []⟩] rfl).1

theorem hook_quiet_context (H : request_handlers)
    (bp : lua_State → lua_Debug → Bool) (s : debugger_impl) (L : lua_State) (ar : lua_Debug)
    (hq : (s.is_state state.terminated || (s.stop_reason bp L ar).isNone) = true) :
    (s.hook H bp L ar []).state_ = s.state_ ∧
    (s.hook H bp L ar []).step_ = s.step_ ∧
    (s.hook H bp L ar []).stepping_stacklevel_ = s.stepping_stacklevel_ ∧
    (s.hook H bp L ar []).stepping_lua_state_ = s.stepping_lua_state_ := by
  unfold debugger_impl.hook
  by_cases ht : s.is_state state.terminated = true
  · simp [ht]
  · simp only [ht, Bool.false_eq_true, if_false]
    simp only [Bool.not_eq_true] at ht
    rw [ht, Bool.false_or] at hq
    cases hev : ar.event with
    | call => exact ⟨rfl, rfl, rfl, rfl⟩
    | ret => exact ⟨rfl, rfl, rfl, rfl⟩
    | line =>
      cases hr : s.stop_reason bp L ar with
      | none => exact ⟨rfl, rfl, rfl, rfl⟩
      | some r => rw [hr] at hq; exact absurd hq (by simp)
    | error =>
      cases hr : s.stop_reason bp L ar with
      | none => exact ⟨rfl, rfl, rfl, rfl⟩
      | some r => rw [hr] at hq; exact absurd hq (by simp)

theorem run_hooks_quiet_context (H : request_handlers) (bp : lua_State → lua_Debug → Bool) :
    ∀ (evs : List (lua_State × lua_Debug)) (s : debugger_impl),
      hooks_quiet H bp s evs = true →
      (run_hooks H bp s evs).state_ = s.state_ ∧
      (run_hooks H bp s evs).step_ = s.step_ ∧
      (run_hooks H bp s evs).stepping_stacklevel_ = s.stepping_stacklevel_ ∧
      (run_hooks H bp s evs).stepping_lua_state_ = s.stepping_lua_state_
  | [], _, _ => ⟨rfl, rfl, rfl, rfl⟩
  | ev :: evs, s, hq => by
    simp only [hooks_quiet, Bool.and_eq_true] at hq
    obtain ⟨h1, h2, h3, h4⟩ := hook_quiet_context H bp s ev.1 ev.2 hq.1
    obtain ⟨i1, i2, i3, i4⟩ := run_hooks_quiet_context H bp evs _ hq.2
    simp only [run_hooks]
    exact ⟨i1.trans h1, i2.trans h2, i3.trans h3, i4.trans h4⟩

theorem lookup_filter_other (L L1 : lua_State) (hne : L1 ≠ L) :
    ∀ m : List (lua_State × Int), (m.filter (fun p => p.1 != L)).lookup L1 = m.lookup L1
  | [] => rfl
  | (k, v) :: m => by
    by_cases hk : k = L
    · subst hk
      have h1 : (L1 == k) = false := by simpa using hne
      simp [List.filter_cons, List.lookup_cons, h1, lookup_filter_other k L1 hne m]
    · have h2 : (k != L) = true := by simpa using hk
      simp only [List.filter_cons, h2, if_true, List.lookup_cons,
        lookup_filter_other L L1 hne m]

theorem level_set_level_same (s : debugger_impl) (L : lua_State) (d : Int) :
    (s.set_level L d).level L = d := by
  simp [debugger_impl.level, debugger_impl.set_level, List.lookup_cons]

theorem level_set_level_other (s : debugger_impl) (L L1 : lua_State) (d : Int)
    (hne : L1 ≠ L) : (s.set_level L d).level L1 = s.level L1 := by
  have h1 : (L1 == L) = false := by simpa using hne
  simp [debugger_impl.level, debugger_impl.set_level, List.lookup_cons, h1,
    lookup_filter_other L L1 hne]

theorem hook_quiet_level (H : request_handlers) (bp : lua_State → lua_Debug → Bool)
    (s : debugger_impl) (L : lua_State) (ev : lua_State × lua_Debug)
    (hs : s.state_ ≠ state.terminated)
    (hq : (s.is_state state.terminated || (s.stop_reason bp ev.1 ev.2).isNone) = true) :
    (s.hook H bp ev.1 ev.2 []).level L = s.level L + depth_change L [ev] := by
  have ht : s.is_state state.terminated = false := by
    simp [debugger_impl.is_state, hs]
  rw [ht, Bool.false_or] at hq
  unfold debugger_impl.hook
  simp only [ht, Bool.false_eq_true, if_false, depth_change, add_zero]
  by_cases hL : ev.1 = L
  · simp only [hL, if_true]
    cases hev : ev.2.event with
    | call => exact level_set_level_same s L _
    | ret =>
      rw [level_set_level_same s L _]
      rfl
    | line =>
      cases hr : s.stop_reason bp ev.1 ev.2 with
      | none => rw [hL] at hr; simp [hr]
      | some r => rw [hr] at hq; exact absurd hq (by simp)
    | error =>
      cases hr : s.stop_reason bp ev.1 ev.2 with
      | none => rw [hL] at hr; simp [hr]
      | some r => rw [hr] at hq; exact absurd hq (by simp)
  · have hne : L ≠ ev.1 := fun h => hL h.symm
    simp only [hL, if_false, add_zero]
    cases hev : ev.2.event with
    | call => exact level_set_level_other s ev.1 L _ hne
    | ret => exact level_set_level_other s ev.1 L _ hne
    | line =>
      cases hr : s.stop_reason bp ev.1 ev.2 with
      | none => rfl
      | some r => rw [hr] at hq; exact absurd hq (by simp)
    | error =>
      cases hr : s.stop_reason bp ev.1 ev.2 with
      | none => rfl
      | some r => rw [hr] at hq; exact absurd hq (by simp)

theorem run_hooks_quiet_level (H : request_handlers) (bp : lua_State → lua_Debug → Bool)
    (L : lua_State) :
    ∀ (evs : List (lua_State × lua_Debug)) (s : debugger_impl),
      s.state_ ≠ state.terminated → hooks_quiet H bp s evs = true →
      (run_hooks H bp s evs).level L = s.level L + depth_change L evs
  | [], s, _, _ => by simp [run_hooks, depth_change]
  | ev :: evs, s, hs, hq => by
    simp only [hooks_quiet, Bool.and_eq_true] at hq
    have h1 := (hook_quiet_context H bp s ev.1 ev.2 hq.1).1
    have hl := hook_quiet_level H bp s L ev hs hq.1
    have ih := run_hooks_quiet_level H bp L evs (s.hook H bp ev.1 ev.2 [])
      (by rw [h1]; exact hs) hq.2
    simp only [run_hooks]
    rw [ih, hl]
    simp only [depth_change, add_zero]
    omega

theorem check_step_in_iff (t : debugger_impl) (L : lua_State) (ar : lua_Debug)
    (hk : t.step_ = step.in_) :
    t.check_step L ar = true ↔ L = t.stepping_lua_state_ := by
  simp [debugger_impl.check_step, hk]

theorem check_step_over_iff (t : debugger_impl) (L : lua_State) (ar : lua_Debug)
    (hk : t.step_ = step.over) :
    t.check_step L ar = true ↔
      L = t.stepping_lua_state_ ∧ t.level L ≤ t.stepping_stacklevel_ := by
  simp [debugger_impl.check_step, hk]

theorem check_step_out_iff (t : debugger_impl) (L : lua_State) (ar : lua_Debug)
    (hk : t.step_ = step.out) :
    t.check_step L ar = true ↔
      L = t.stepping_lua_state_ ∧ t.level L < t.stepping_stacklevel_ := by
  simp [debugger_impl.check_step, hk]

theorem stop_reason_step_in (bp : lua_State → lua_Debug → Bool) (t : debugger_impl)
    (L : lua_State) (ar : lua_Debug) (hs : t.state_ = state.step_pending)
    (hk : t.step_ = step.in_) (hL : t.stepping_lua_state_ = L)
    (hl : ar.event = hook_event.line) :
    t.stop_reason bp L ar = some "breakpoint" ∨ t.stop_reason bp L ar = some "step" := by
  unfold debugger_impl.stop_reason
  rw [hl]
  by_cases hb : bp L ar = true
  · left; simp [hb]
  · right; simp [hb, debugger_impl.is_state, debugger_impl.check_step, hs, hk, hL]

theorem hook_stops (H : request_handlers) (bp : lua_State → lua_Debug → Bool)
    (t : debugger_impl) (L : lua_State) (ar : lua_Debug) (r : String)
    (hs : t.state_ ≠ state.terminated) (hl : ar.event = hook_event.line)
    (hr : t.stop_reason bp L ar = some r) :
    (t.hook H bp L ar []).state_ = state.stopped ∧
      (t.hook H bp L ar []).network_.sent.length = t.network_.sent.length + 1 := by
  unfold debugger_impl.hook
  have ht : t.is_state state.terminated = false := by
    simp [debugger_impl.is_state, hs]
  simp only [ht, Bool.false_eq_true, if_false, hl, hr]
  simp [debugger_impl.run_stopped, debugger_impl.run_stopped_loop, debugger_impl.set_state,
    debugger_impl.event_stopped, io.output]

/-- C4: let d be the depth recorded for interpreter L when the step is
requested, and let any events that do not stop follow; the hook's depth
accounting then has the depth of L at d plus its calls less its returns. After
`step_over(L)`, `check_step` at an event of L is true iff that current depth is
≤ d; after `step_out(L)`, iff it is < d; after `step_in()` requested while
paused in L, a line event of L stops whatever the depth: the decision table
gives a reason and the hook leaves the session Stopped with a `stopped` event
sent. -/
theorem check_step_after_step_request (H : request_handlers)
    (bp : lua_State → lua_Debug → Bool) (s : debugger_impl) (L : lua_State)
    (ar ar1 : lua_Debug) (evs : List (lua_State × lua_Debug)) :
    (hooks_quiet H bp (s.step_over L ar) evs = true →
      (run_hooks H bp (s.step_over L ar) evs).level L = s.level L + depth_change L evs ∧
      ((run_hooks H bp (s.step_over L ar) evs).check_step L ar1 = true ↔
        (run_hooks H bp (s.step_over L ar) evs).level L ≤ s.level L)) ∧
    (hooks_quiet H bp (s.step_out L ar) evs = true →
      (run_hooks H bp (s.step_out L ar) evs).level L = s.level L + depth_change L evs ∧
      ((run_hooks H bp (s.step_out L ar) evs).check_step L ar1 = true ↔
        (run_hooks H bp (s.step_out L ar) evs).level L < s.level L)) ∧
    (s.hookL_ = L → hooks_quiet H bp s.step_in evs = true →
      ar1.event = hook_event.line →
      (run_hooks H bp s.step_in evs).level L = s.level L + depth_change L evs ∧
      ((run_hooks H bp s.step_in evs).stop_reason bp L ar1).isSome = true ∧
      ((run_hooks H bp s.step_in evs).hook H bp L ar1 []).state_ = state.stopped ∧
      ((run_hooks H bp s.step_in evs).hook H bp L ar1 []).network_.sent.length =
        (run_hooks H bp s.step_in evs).network_.sent.length + 1) := by
  refine ⟨?_, ?_, ?_⟩
  · intro hq
    obtain ⟨_, h2, h3, h4⟩ := run_hooks_quiet_context H bp evs _ hq
    have hl := run_hooks_quiet_level H bp L evs (s.step_over L ar)
      (by show state.step_pending ≠ state.terminated; decide) hq
    refine ⟨hl, ?_⟩
    rw [check_step_over_iff _ _ _ (h2.trans rfl), h3, h4]
    show L = L ∧ _ ≤ s.level L ↔ _
    simp
  · intro hq
    obtain ⟨_, h2, h3, h4⟩ := run_hooks_quiet_context H bp evs _ hq
    have hl := run_hooks_quiet_level H bp L evs (s.step_out L ar)
      (by show state.step_pending ≠ state.terminated; decide) hq
    refine ⟨hl, ?_⟩
    rw [check_step_out_iff _ _ _ (h2.trans rfl), h3, h4]
    show L = L ∧ _ < s.level L ↔ _
    simp
  · intro hp hq hl
    obtain ⟨h1, h2, _, h4⟩ := run_hooks_quiet_context H bp evs _ hq
    have hlev := run_hooks_quiet_level H bp L evs s.step_in
      (by show state.step_pending ≠ state.terminated; decide) hq
    have hs : (run_hooks H bp s.step_in evs).state_ = state.step_pending := h1.trans rfl
    have hk : (run_hooks H bp s.step_in evs).step_ = step.in_ := h2.trans rfl
    have hA : (run_hooks H bp s.step_in evs).stepping_lua_state_ = L :=
      h4.trans (show s.hookL_ = L from hp)
    have hne : (run_hooks H bp s.step_in evs).state_ ≠ state.terminated := by
      rw [hs]; decide
    refine ⟨hlev, ?_⟩
    rcases stop_reason_step_in bp _ L ar1 hs hk hA hl with hr | hr
    · exact ⟨by rw [hr]; rfl, hook_stops H bp _ L ar1 _ hne hl hr⟩
    · exact ⟨by rw [hr]; rfl, hook_stops H bp _ L ar1 _ hne hl hr⟩

theorem check_step_after_step_request_witness :
    (run_hooks resume_handlers sample_breakpoint
        (sample_session.step_over 1 ⟨hook_event.line, 3⟩)
        [(1, ⟨hook_event.call, 0⟩), (2, ⟨hook_event.call, 0⟩), (1, ⟨hook_event.ret, 0⟩),
          (1, ⟨hook_event.ret, 0⟩)]).level 1 = -1 ∧
    (run_hooks resume_handlers sample_breakpoint
        (sample_session.step_over 1 ⟨hook_event.line, 3⟩)
        [(1, ⟨hook_event.call, 0⟩), (2, ⟨hook_event.call, 0⟩), (1, ⟨hook_event.ret, 0⟩),
          (1, ⟨hook_event.ret, 0⟩)]).check_step 1 ⟨hook_event.line, 4⟩ = true ∧
    (run_hooks resume_handlers sample_breakpoint
        (sample_session.step_over 1 ⟨hook_event.line, 3⟩)
        [(1, ⟨hook_event.call, 0⟩)]).level 1 = 1 ∧
    (run_hooks resume_handlers sample_breakpoint
        (sample_session.step_over 1 ⟨hook_event.line, 3⟩)
        [(1, ⟨hook_event.call, 0⟩)]).check_step 1 ⟨hook_event.line, 4⟩ ≠ true ∧
    (run_hooks resume_handlers sample_breakpoint
        (sample_session.step_out 1 ⟨hook_event.line, 3⟩)
        [(2, ⟨hook_event.ret, 0⟩)]).check_step 1 ⟨hook_event.line, 4⟩ ≠ true :=
  ⟨((check_step_after_step_request resume_handlers sample_breakpoint sample_session 1
      ⟨hook_event.line, 3⟩ ⟨hook_event.line, 4⟩
      [(1, ⟨hook_event.call, 0⟩), (2, ⟨hook_event.call, 0⟩), (1, ⟨hook_event.ret, 0⟩),
        (1, ⟨hook_event.ret, 0⟩)]).1 (by decide)).1,
   ((check_step_after_step_request resume_handlers sample_breakpoint sample_session 1
      ⟨hook_event.line, 3⟩ ⟨hook_event.line, 4⟩
      [(1, ⟨hook_event.call, 0⟩), (2, ⟨hook_event.call, 0⟩), (1, ⟨hook_event.ret, 0⟩),
        (1, ⟨hook_event.ret, 0⟩)]).1 (by decide)).2.mpr (by decide),
   ((check_step_after_step_request resume_handlers sample_breakpoint sample_session 1
      ⟨hook_event.line, 3⟩ ⟨hook_event.line, 4⟩ [(1, ⟨hook_event.call, 0⟩)]).1
      (by decide)).1,
   fun h => absurd
    (((check_step_after_step_request resume_handlers sample_breakpoint sample_session 1
      ⟨hook_event.line, 3⟩ ⟨hook_event.line, 4⟩ [(1, ⟨hook_event.call, 0⟩)]).1
      (by decide)).2.mp h) (by decide),
   fun h => absurd
    (((check_step_after_step_request resume_handlers sample_breakpoint sample_session 1
      ⟨hook_event.line, 3⟩ ⟨hook_event.line, 4⟩ [(2, ⟨hook_event.ret, 0⟩)]).2.1
      (by decide)).2.mp h) (by decide)⟩

theorem hook_as_running (H : request_handlers) (bp : lua_State → lua_Debug → Bool)
    (t : debugger_impl) (B : lua_State) (ar1 : lua_Debug) (inbox : List rprotocol)
    (hs : t.state_ = state.step_pending) (hc : t.check_step B ar1 = false) :
    t.stop_reason bp B ar1 = (t.set_state state.running).stop_reason bp B ar1 ∧
    ((t.set_state state.running).hook H bp B ar1 inbox = t.hook H bp B ar1 inbox ∨
      (t.set_state state.running).hook H bp B ar1 inbox =
        (t.hook H bp B ar1 inbox).set_state state.running) := by
  have hr : t.stop_reason bp B ar1 = (t.set_state state.running).stop_reason bp B ar1 := by
    unfold debugger_impl.stop_reason
    cases ar1.event <;>
      simp [debugger_impl.is_state, debugger_impl.set_state, hc]
  refine ⟨hr, ?_⟩
  have h1 : t.is_state state.terminated = false := by
    simp [debugger_impl.is_state, hs]
  have h2 : (t.set_state state.running).is_state state.terminated = false := by
    simp [debugger_impl.is_state, debugger_impl.set_state]
  unfold debugger_impl.hook
  simp only [h1, h2, Bool.false_eq_true, if_false]
  rw [← hr]
  cases ar1.event with
  | call => exact Or.inr rfl
  | ret => exact Or.inr rfl
  | line =>
    cases t.stop_reason bp B ar1 with
    | none => exact Or.inr rfl
    | some r => exact Or.inl rfl
  | error =>
    cases t.stop_reason bp B ar1 with
    | none => exact Or.inr rfl
    | some r => exact Or.inl rfl

theorem check_step_other_interpreter (t : debugger_impl) (A B : lua_State) (ar1 : lua_Debug)
    (hB : B ≠ A) (hA : t.stepping_lua_state_ = A) : t.check_step B ar1 = false := by
  cases hk : t.step_ <;> simp [debugger_impl.check_step, hk, hA, hB]

/-- C5: for a pending step of any kind (in, over or out) requested while paused
in interpreter A, after any events that do not stop, an event fired by another
interpreter B does not satisfy the step predicate, and it is treated exactly as
in a Running session with no step pending: the decision table gives the same
answer, and the hook leaves the same session, the state field aside when it does
not stop. -/
theorem step_ignores_other_interpreter (H : request_handlers)
    (bp : lua_State → lua_Debug → Bool) (s : debugger_impl) (A B : lua_State)
    (ar ar1 : lua_Debug) (evs : List (lua_State × lua_Debug)) (inbox : List rprotocol)
    (hB : B ≠ A) :
    (s.hookL_ = A → hooks_quiet H bp s.step_in evs = true →
      (run_hooks H bp s.step_in evs).check_step B ar1 = false ∧
      (run_hooks H bp s.step_in evs).stop_reason bp B ar1 =
        ((run_hooks H bp s.step_in evs).set_state state.running).stop_reason bp B ar1 ∧
      (((run_hooks H bp s.step_in evs).set_state state.running).hook H bp B ar1 inbox =
          (run_hooks H bp s.step_in evs).hook H bp B ar1 inbox ∨
        ((run_hooks H bp s.step_in evs).set_state state.running).hook H bp B ar1 inbox =
          ((run_hooks H bp s.step_in evs).hook H bp B ar1 inbox).set_state
            state.running)) ∧
    (hooks_quiet H bp (s.step_over A ar) evs = true →
      (run_hooks H bp (s.step_over A ar) evs).check_step B ar1 = false ∧
      (run_hooks H bp (s.step_over A ar) evs).stop_reason bp B ar1 =
        ((run_hooks H bp (s.step_over A ar) evs).set_state state.running).stop_reason
          bp B ar1 ∧
      (((run_hooks H bp (s.step_over A ar) evs).set_state state.running).hook H bp B ar1 inbox =
          (run_hooks H bp (s.step_over A ar) evs).hook H bp B ar1 inbox ∨
        ((run_hooks H bp (s.step_over A ar) evs).set_state state.running).hook H bp B ar1 inbox =
          ((run_hooks H bp (s.step_over A ar) evs).hook H bp B ar1 inbox).set_state
            state.running)) ∧
    (hooks_quiet H bp (s.step_out A ar) evs = true →
      (run_hooks H bp (s.step_out A ar) evs).check_step B ar1 = false ∧
      (run_hooks H bp (s.step_out A ar) evs).stop_reason bp B ar1 =
        ((run_hooks H bp (s.step_out A ar) evs).set_state state.running).stop_reason
          bp B ar1 ∧
      (((run_hooks H bp (s.step_out A ar) evs).set_state state.running).hook H bp B ar1 inbox =
          (run_hooks H bp (s.step_out A ar) evs).hook H bp B ar1 inbox ∨
        ((run_hooks H bp (s.step_out A ar) evs).set_state state.running).hook H bp B ar1 inbox =
          ((run_hooks H bp (s.step_out A ar) evs).hook H bp B ar1 inbox).set_state
            state.running)) := by
  refine ⟨?_, ?_, ?_⟩
  · intro hp hq
    obtain ⟨h1, _, _, h4⟩ := run_hooks_quiet_context H bp evs _ hq
    have hc := check_step_other_interpreter _ A B ar1 hB
      (h4.trans (show s.hookL_ = A from hp))
    exact ⟨hc, hook_as_running H bp _ B ar1 inbox (h1.trans rfl) hc⟩
  · intro hq
    obtain ⟨h1, _, _, h4⟩ := run_hooks_quiet_context H bp evs _ hq
    have hc := check_step_other_interpreter _ A B ar1 hB (h4.trans rfl)
    exact ⟨hc, hook_as_running H bp _ B ar1 inbox (h1.trans rfl) hc⟩
  · intro hq
    obtain ⟨h1, _, _, h4⟩ := run_hooks_quiet_context H bp evs _ hq
    have hc := check_step_other_interpreter _ A B ar1 hB (h4.trans rfl)
    exact ⟨hc, hook_as_running H bp _ B ar1 inbox (h1.trans rfl) hc⟩

theorem step_ignores_other_interpreter_witness :
    (2 : lua_State) ≠ 1 ∧
    sample_paused.hookL_ = 1 ∧
    (run_hooks resume_handlers sample_breakpoint sample_paused.step_in
        [(1, ⟨hook_event.call, 0⟩)]).stop_reason sample_breakpoint 2 ⟨hook_event.line, 5⟩ =
      ((run_hooks resume_handlers sample_breakpoint sample_paused.step_in
        [(1, ⟨hook_event.call, 0⟩)]).set_state state.running).stop_reason
          sample_breakpoint 2 ⟨hook_event.line, 5⟩ ∧
    (run_hooks resume_handlers sample_breakpoint
        (sample_paused.step_over 1 ⟨hook_event.line, 10⟩)
        [(1, ⟨hook_event.ret, 0⟩)]).check_step 2 ⟨hook_event.line, 5⟩ = false :=
  ⟨by decide, by decide,
   ((step_ignores_other_interpreter resume_handlers sample_breakpoint sample_paused
      1 2 ⟨hook_event.line, 10⟩ ⟨hook_event.line, 5⟩ [(1, ⟨hook_event.call, 0⟩)] []
      (by decide)).1 (by decide) (by decide)).2.1,
   ((step_ignores_other_interpreter resume_handlers sample_breakpoint sample_paused
      1 2 ⟨hook_event.line, 10⟩ ⟨hook_event.line, 5⟩ [(1, ⟨hook_event.ret, 0⟩)] []
      (by decide)).2.1 (by decide)).1⟩

/-! ## The dispatcher -/

end vscode
